import Mathlib

/-!
Shallow embedding of the stock-management library (models.py and algorithms.py)
and verification of its specified behaviour.

Python floats are modelled as exact rationals; the two square-root-valued
formulas (EOQ and safety stock) take rational inputs and produce real results.
Methods that can raise `ValueError` are modelled as `Except String` values;
the `ABCAnalysisAlgorithm.calculate` routine, which can hit an unguarded
division by zero, is modelled as an `Option` (with `none` for the crash).
Python dictionaries (insertion ordered, key update in place) are modelled as
association lists built by `dictInsert`.
-/

namespace StockManagement

/-- The `Inventory` dataclass from models.py (timestamp-free fields). -/
structure Inventory where
  product_id : String
  current_stock : ℚ
  holding_cost_per_unit : ℚ
  unit_cost : ℚ
  min_stock_level : ℚ
  max_stock_level : Option ℚ
  deriving DecidableEq

/-- The `Demand` dataclass from models.py (timestamp omitted). -/
structure Demand where
  product_id : String
  quantity : ℚ
  deriving DecidableEq

/-- The `Order` dataclass from models.py (timestamp omitted). -/
structure Order where
  product_id : String
  quantity : ℚ
  order_cost : ℚ
  lead_time_days : ℚ
  deriving DecidableEq

/-- `Demand.__post_init__` validation. -/
def mkDemand (pid : String) (quantity : ℚ) : Except String Demand :=
  if quantity < 0 then Except.error ("Demand quantity cannot be negative")
  else Except.ok (Demand.mk pid quantity)

/-- `Order.__post_init__` validation. -/
def mkOrder (pid : String) (quantity order_cost lead_time_days : ℚ) : Except String Order :=
  if quantity ≤ 0 then Except.error ("Order quantity must be positive")
  else if order_cost < 0 then Except.error ("Order cost cannot be negative")
  else if lead_time_days < 0 then Except.error ("Lead time cannot be negative")
  else Except.ok (Order.mk pid quantity order_cost lead_time_days)

/-- `Order.total_cost` derived attribute. -/
def Order.total_cost (o : Order) : ℚ := o.order_cost

/-- `Inventory.__post_init__` validation. -/
def mkInventory (pid : String) (cs hc uc ms : ℚ) (mx : Option ℚ) : Except String Inventory :=
  if cs < 0 then Except.error ("Current stock cannot be negative")
  else if hc < 0 then Except.error ("Holding cost cannot be negative")
  else if uc < 0 then Except.error ("Unit cost cannot be negative")
  else if ms < 0 then Except.error ("Minimum stock level cannot be negative")
  else
    match mx with
    | some mxv =>
      if mxv < ms then Except.error ("Maximum stock level cannot be less than minimum")
      else Except.ok (Inventory.mk pid cs hc uc ms mx)
    | none => Except.ok (Inventory.mk pid cs hc uc ms mx)

/-- `Inventory.add_stock`: the mutation is modelled by returning the new state. -/
def Inventory.add_stock (inv : Inventory) (quantity : ℚ) : Except String Inventory :=
  if quantity ≤ 0 then Except.error ("Quantity to add must be positive")
  else Except.ok (Inventory.mk inv.product_id (inv.current_stock + quantity)
    inv.holding_cost_per_unit inv.unit_cost inv.min_stock_level inv.max_stock_level)

/-- `Inventory.remove_stock`: the mutation is modelled by returning the new state. -/
def Inventory.remove_stock (inv : Inventory) (quantity : ℚ) : Except String Inventory :=
  if quantity ≤ 0 then Except.error ("Quantity to remove must be positive")
  else if inv.current_stock < quantity then
    Except.error ("Cannot remove more units than are available")
  else Except.ok (Inventory.mk inv.product_id (inv.current_stock - quantity)
    inv.holding_cost_per_unit inv.unit_cost inv.min_stock_level inv.max_stock_level)

/-- `Inventory.is_below_minimum`. -/
def Inventory.is_below_minimum (inv : Inventory) : Bool :=
  decide (inv.current_stock < inv.min_stock_level)

/-- `Inventory.is_above_maximum`. -/
def Inventory.is_above_maximum (inv : Inventory) : Bool :=
  match inv.max_stock_level with
  | none => false
  | some mxv => decide (mxv < inv.current_stock)

/-- `Inventory.calculate_holding_cost`. -/
def Inventory.calculate_holding_cost (inv : Inventory) : ℚ :=
  inv.current_stock * inv.holding_cost_per_unit

/-- One `add_stock` (left) or `remove_stock` (right) call; a raised error leaves
the state unchanged, as in the Python code where the exception is thrown before
any mutation. -/
def Inventory.applyOp (inv : Inventory) (op : ℚ ⊕ ℚ) : Inventory :=
  match op with
  | Sum.inl q =>
    match inv.add_stock q with
    | Except.ok inv2 => inv2
    | Except.error _ => inv
  | Sum.inr q =>
    match inv.remove_stock q with
    | Except.ok inv2 => inv2
    | Except.error _ => inv

/-- A sequence of `add_stock`/`remove_stock` calls. -/
def Inventory.applyOps (inv : Inventory) (ops : List (ℚ ⊕ ℚ)) : Inventory :=
  ops.foldl Inventory.applyOp inv

namespace EOQAlgorithm

/-- `EOQAlgorithm.calculate` from algorithms.py. -/
noncomputable def calculate (annual_demand ordering_cost holding_cost : ℚ) : Except String ℝ :=
  if annual_demand ≤ 0 then Except.error ("Annual demand must be positive")
  else if ordering_cost < 0 then Except.error ("Ordering cost cannot be negative")
  else if holding_cost ≤ 0 then Except.error ("Holding cost must be positive")
  else Except.ok (Real.sqrt (((2 * annual_demand * ordering_cost) / holding_cost : ℚ) : ℝ))

/-- `EOQAlgorithm.calculate_total_cost`: returns (total, ordering total, holding total). -/
def calculate_total_cost (annual_demand ordering_cost holding_cost order_quantity : ℚ) :
    Except String (ℚ × ℚ × ℚ) :=
  if order_quantity ≤ 0 then Except.error ("Order quantity must be positive")
  else
    let number_of_orders := annual_demand / order_quantity
    let total_ordering_cost := number_of_orders * ordering_cost
    let total_holding_cost := (order_quantity / 2) * holding_cost
    Except.ok (total_ordering_cost + total_holding_cost, total_ordering_cost, total_holding_cost)

/-- `EOQAlgorithm.calculate_reorder_frequency`. -/
def calculate_reorder_frequency (annual_demand eoq : ℚ) : ℚ :=
  if 0 < eoq then annual_demand / eoq else 0

end EOQAlgorithm

namespace ReorderPointAlgorithm

/-- `ReorderPointAlgorithm.calculate` from algorithms.py. -/
def calculate (daily_demand lead_time_days safety_stock : ℚ) : Except String ℚ :=
  if daily_demand < 0 then Except.error ("Daily demand cannot be negative")
  else if lead_time_days < 0 then Except.error ("Lead time cannot be negative")
  else if safety_stock < 0 then Except.error ("Safety stock cannot be negative")
  else Except.ok (daily_demand * lead_time_days + safety_stock)

/-- `ReorderPointAlgorithm.calculate_from_annual` from algorithms.py. -/
def calculate_from_annual (annual_demand lead_time_days safety_stock working_days : ℚ) :
    Except String ℚ :=
  if working_days ≤ 0 then Except.error ("Working days must be positive")
  else calculate (annual_demand / working_days) lead_time_days safety_stock

end ReorderPointAlgorithm

namespace SafetyStockAlgorithm

/-- `SafetyStockAlgorithm.calculate` from algorithms.py. -/
noncomputable def calculate (service_level_z demand_std_dev lead_time_days : ℚ) :
    Except String ℝ :=
  if service_level_z < 0 then Except.error ("Service level Z-score cannot be negative")
  else if demand_std_dev < 0 then Except.error ("Standard deviation cannot be negative")
  else if lead_time_days < 0 then Except.error ("Lead time cannot be negative")
  else Except.ok ((service_level_z : ℝ) * (demand_std_dev : ℝ) * Real.sqrt (lead_time_days : ℝ))

/-- The `service_levels` table, in Python dict insertion order. -/
def service_levels : List (ℚ × ℚ) :=
  [(50, 0), (75, 67/100), (80, 84/100), (85, 104/100), (90, 128/100), (95, 165/100),
   (97, 188/100), (98, 205/100), (99, 233/100), (199/2, 258/100), (999/10, 309/100)]

/-- `service_levels[k]` for a key `k` of the table. -/
def zLookup (k : ℚ) : ℚ :=
  ((service_levels.find? (fun kv => decide (kv.1 = k))).map Prod.snd).getD 0

/-- One step of Python `min(keys, key=lambda x: abs(x - p))`: the running best is
replaced only when the new key is strictly closer, so the first minimum wins. -/
def closestStep (p best k : ℚ) : ℚ :=
  if |k - p| < |best - p| then k else best

/-- `min(service_levels.keys(), key=lambda x: abs(x - service_level_percent))`. -/
def closestKey (p : ℚ) : ℚ :=
  match service_levels.map Prod.fst with
  | [] => p
  | k :: ks => ks.foldl (closestStep p) k

/-- `SafetyStockAlgorithm.get_z_score_for_service_level`. -/
def get_z_score_for_service_level (p : ℚ) : ℚ :=
  if p ∈ service_levels.map Prod.fst then zLookup p
  else zLookup (closestKey p)

end SafetyStockAlgorithm

namespace ABCAnalysisAlgorithm

/-- The sort order used by `item_values.sort(key=lambda x: x[1], reverse=True)`:
`a` may come before `b` when `a`'s value is at least `b`'s. -/
def valGE (a b : String × ℚ) : Prop := b.2 ≤ a.2

instance : DecidableRel valGE := fun a b => inferInstanceAs (Decidable (b.2 ≤ a.2))

instance : IsTotal (String × ℚ) valGE := ⟨fun a b => le_total b.2 a.2⟩

instance : IsTrans (String × ℚ) valGE := ⟨fun _ _ _ h1 h2 => le_trans h2 h1⟩

/-- The `item_values` list: each item mapped to (product id, unit cost · annual demand). -/
def itemValues (items : List (String × ℚ × ℚ)) : List (String × ℚ) :=
  items.map (fun it => (it.1, it.2.1 * it.2.2))

/-- `item_values` after the stable descending sort by value. -/
def sortedValues (items : List (String × ℚ × ℚ)) : List (String × ℚ) :=
  List.insertionSort valGE (itemValues items)

/-- `total_value = sum(value for _, value in item_values)` (summed, as in the code,
over the sorted list). -/
def totalValue (items : List (String × ℚ × ℚ)) : ℚ :=
  ((sortedValues items).map Prod.snd).sum

/-- The category assigned from a cumulative percentage. -/
def categoryOf (pct : ℚ) : String :=
  if pct < 80 then "A" else if pct < 95 then "B" else "C"

/-- The classification loop: each item is tagged with the category of the
cumulative percentage accumulated BEFORE its own value is added. -/
def classifyPairs (total : ℚ) : ℚ → List (String × ℚ) → List (String × String)
  | _, [] => []
  | cum, (pid, v) :: rest =>
    (pid, categoryOf (cum / total * 100)) :: classifyPairs total (cum + v) rest

/-- Python dict assignment `d[k] = v`: update in place if the key exists,
append otherwise. -/
def dictInsert (d : List (String × String)) (k v : String) : List (String × String) :=
  if d.any (fun kv => kv.1 == k) then
    d.map (fun kv => if kv.1 == k then (k, v) else kv)
  else d ++ [(k, v)]

/-- Building the `classification` dict from the tagged pairs in loop order. -/
def dictOf (pairs : List (String × String)) : List (String × String) :=
  pairs.foldl (fun d kv => dictInsert d kv.1 kv.2) []

/-- `ABCAnalysisAlgorithm.calculate`. A non-empty input whose total value is zero
makes the Python loop divide by zero (`ZeroDivisionError`), modelled as `none`. -/
def calculate (items : List (String × ℚ × ℚ)) : Option (List (String × String)) :=
  if items.isEmpty then some []
  else if totalValue items = 0 then none
  else some (dictOf (classifyPairs (totalValue items) 0 (sortedValues items)))

end ABCAnalysisAlgorithm

/-! ### General helper lemmas -/

/-- Absolute value on the rationals, as a conditional (used to evaluate the
nearest-key search on concrete inputs). -/
lemma abs_ite (x : ℚ) : |x| = if x < 0 then -x else x := by
  split
  case isTrue h => exact abs_of_neg h
  case isFalse h => exact abs_of_nonneg (not_lt.mp h)

lemma applyOp_nonneg (inv : Inventory) (op : ℚ ⊕ ℚ)
    (h : 0 ≤ inv.current_stock) : 0 ≤ (inv.applyOp op).current_stock := by
  cases op with
  | inl q =>
    by_cases hq : q ≤ 0
    · simpa [Inventory.applyOp, Inventory.add_stock, hq] using h
    · simp only [Inventory.applyOp, Inventory.add_stock, hq, if_false]
      push_neg at hq
      simpa using by linarith
  | inr q =>
    by_cases hq : q ≤ 0
    · simpa [Inventory.applyOp, Inventory.remove_stock, hq] using h
    · by_cases hs : inv.current_stock < q
      · simpa [Inventory.applyOp, Inventory.remove_stock, hq, hs] using h
      · simp only [Inventory.applyOp, Inventory.remove_stock, hq, hs, if_false]
        push_neg at hs
        simpa using by linarith

lemma applyOps_nonneg : ∀ (ops : List (ℚ ⊕ ℚ)) (inv : Inventory),
    0 ≤ inv.current_stock → 0 ≤ (inv.applyOps ops).current_stock
  | [], _, h => h
  | op :: ops, inv, h => applyOps_nonneg ops (inv.applyOp op) (applyOp_nonneg inv op h)

/-- The running minimum-distance fold behind `closestKey`: the result is the
initial candidate or a list element, and its distance to `p` is minimal. -/
lemma closest_foldl (p : ℚ) (ks : List ℚ) : ∀ b : ℚ,
    (ks.foldl (SafetyStockAlgorithm.closestStep p) b = b ∨
     ks.foldl (SafetyStockAlgorithm.closestStep p) b ∈ ks) ∧
    |ks.foldl (SafetyStockAlgorithm.closestStep p) b - p| ≤ |b - p| ∧
    ∀ k ∈ ks, |ks.foldl (SafetyStockAlgorithm.closestStep p) b - p| ≤ |k - p| := by
  induction ks with
  | nil =>
    intro b
    exact ⟨Or.inl rfl, le_refl _, by simp⟩
  | cons k ks ih =>
    intro b
    have hstep : (SafetyStockAlgorithm.closestStep p b k = b ∨
        SafetyStockAlgorithm.closestStep p b k = k) ∧
        |SafetyStockAlgorithm.closestStep p b k - p| ≤ |b - p| ∧
        |SafetyStockAlgorithm.closestStep p b k - p| ≤ |k - p| := by
      rw [SafetyStockAlgorithm.closestStep]
      split_ifs with h
      · exact ⟨Or.inr rfl, le_of_lt h, le_refl _⟩
      · exact ⟨Or.inl rfl, le_refl _, not_lt.mp h⟩
    obtain ⟨ihmem, ihle, ihall⟩ := ih (SafetyStockAlgorithm.closestStep p b k)
    rw [List.foldl_cons]
    refine ⟨?_, ?_, ?_⟩
    · rcases ihmem with h | h
      · rcases hstep.1 with h2 | h2
        · rw [h, h2]
          exact Or.inl rfl
        · rw [h, h2]
          exact Or.inr (List.mem_cons_self k ks)
      · exact Or.inr (List.mem_cons_of_mem k h)
    · exact le_trans ihle hstep.2.1
    · intro k2 hk2
      rcases List.mem_cons.mp hk2 with h | h
      · rw [h]
        exact le_trans ihle hstep.2.2
      · exact ihall k2 h

/-! ### Lemmas about the ABC classification -/

open ABCAnalysisAlgorithm in
lemma classifyPairs_length (total : ℚ) (s : List (String × ℚ)) : ∀ cum : ℚ,
    (classifyPairs total cum s).length = s.length := by
  induction s with
  | nil =>
    intro cum
    rfl
  | cons x rest ih =>
    intro cum
    obtain ⟨pid, v⟩ := x
    simp [classifyPairs, ih]

open ABCAnalysisAlgorithm in
lemma classifyPairs_get (total : ℚ) (s : List (String × ℚ)) : ∀ (cum : ℚ) (i : ℕ)
    (h : i < s.length) (h2 : i < (classifyPairs total cum s).length),
    (classifyPairs total cum s).get ⟨i, h2⟩ =
      ((s.get ⟨i, h⟩).1,
       categoryOf ((cum + ((s.take i).map Prod.snd).sum) / total * 100)) := by
  induction s with
  | nil =>
    intro cum i h h2
    exact absurd h (Nat.not_lt_zero i)
  | cons x rest ih =>
    obtain ⟨pid, v⟩ := x
    intro cum i h h2
    cases i with
    | zero => simp [classifyPairs]
    | succ j =>
      have hj : j < rest.length := Nat.lt_of_succ_lt_succ h
      have hj2 : j < (classifyPairs total (cum + v) rest).length := by
        rw [classifyPairs_length]
        exact hj
      have hrec := ih (cum + v) j hj hj2
      simp only [classifyPairs, List.get_cons_succ]
      rw [hrec]
      simp only [List.take_succ_cons, List.map_cons, List.sum_cons]
      rw [← add_assoc]

open ABCAnalysisAlgorithm in
lemma classifyPairs_mem_category (total : ℚ) (s : List (String × ℚ)) : ∀ (cum : ℚ)
    (pr : String × String), pr ∈ classifyPairs total cum s →
    pr.2 = "A" ∨ pr.2 = "B" ∨ pr.2 = "C" := by
  induction s with
  | nil =>
    intro cum pr h
    exact absurd h (List.not_mem_nil pr)
  | cons x rest ih =>
    obtain ⟨pid, v⟩ := x
    intro cum pr h
    simp only [classifyPairs, List.mem_cons] at h
    rcases h with h | h
    · rw [h]
      simp only [categoryOf]
      split_ifs
      · exact Or.inl rfl
      · exact Or.inr (Or.inl rfl)
      · exact Or.inr (Or.inr rfl)
    · exact ih (cum + v) pr h

open ABCAnalysisAlgorithm in
lemma classifyPairs_keys (total : ℚ) (s : List (String × ℚ)) : ∀ cum : ℚ,
    (classifyPairs total cum s).map Prod.fst = s.map Prod.fst := by
  induction s with
  | nil =>
    intro cum
    rfl
  | cons x rest ih =>
    intro cum
    obtain ⟨pid, v⟩ := x
    simp [classifyPairs, ih]

open ABCAnalysisAlgorithm in
lemma classifyPairs_head (total : ℚ) (pid : String) (v : ℚ) (rest : List (String × ℚ)) :
    classifyPairs total 0 ((pid, v) :: rest) =
      (pid, "A") :: classifyPairs total (0 + v) rest := by
  norm_num [classifyPairs, categoryOf]

open ABCAnalysisAlgorithm in
lemma dictInsert_of_not_mem (d : List (String × String)) (k v : String)
    (h : ∀ kv ∈ d, kv.1 ≠ k) : dictInsert d k v = d ++ [(k, v)] := by
  rw [dictInsert, if_neg]
  simp only [List.any_eq_true, beq_iff_eq, not_exists, not_and]
  intro kv hkv
  exact h kv hkv

open ABCAnalysisAlgorithm in
lemma dictOf_aux (pairs : List (String × String)) : ∀ d : List (String × String),
    (∀ kv ∈ d, ∀ kv2 ∈ pairs, kv.1 ≠ kv2.1) → (pairs.map Prod.fst).Nodup →
    pairs.foldl (fun d2 kv => dictInsert d2 kv.1 kv.2) d = d ++ pairs := by
  induction pairs with
  | nil =>
    intro d _ _
    simp
  | cons kv rest ih =>
    intro d hdisj hnd
    rw [List.map_cons, List.nodup_cons] at hnd
    obtain ⟨hk, hnd2⟩ := hnd
    rw [List.foldl_cons]
    have h1 : dictInsert d kv.1 kv.2 = d ++ [(kv.1, kv.2)] :=
      dictInsert_of_not_mem d kv.1 kv.2
        (fun kv3 h3 => hdisj kv3 h3 kv (List.mem_cons_self kv rest))
    rw [h1]
    rw [ih (d ++ [(kv.1, kv.2)]) ?_ hnd2]
    · simp
    · intro kv3 h3 kv2 h2
      rcases List.mem_append.mp h3 with h4 | h4
      · exact hdisj kv3 h4 kv2 (List.mem_cons_of_mem kv h2)
      · have hkv3 : kv3 = (kv.1, kv.2) := by simpa using h4
        rw [hkv3]
        intro heq
        exact hk (heq ▸ List.mem_map_of_mem Prod.fst h2)

open ABCAnalysisAlgorithm in
lemma dictOf_nodup (pairs : List (String × String))
    (h : (pairs.map Prod.fst).Nodup) : dictOf pairs = pairs := by
  have := dictOf_aux pairs [] (by simp) h
  simpa [dictOf] using this

open ABCAnalysisAlgorithm in
lemma stable_filter (l : List (String × ℚ)) (v : ℚ) :
    (List.insertionSort valGE l).filter (fun x => decide (x.2 = v)) =
      l.filter (fun x => decide (x.2 = v)) := by
  have hperm : List.Perm
      ((List.insertionSort valGE l).filter (fun x => decide (x.2 = v)))
      (l.filter (fun x => decide (x.2 = v))) :=
    (List.perm_insertionSort valGE l).filter _
  have hpw : (l.filter (fun x => decide (x.2 = v))).Pairwise valGE := by
    apply List.pairwise_of_forall_mem_list
    intro a ha b hb
    have ha2 : a.2 = v := by simpa using (List.mem_filter.mp ha).2
    have hb2 : b.2 = v := by simpa using (List.mem_filter.mp hb).2
    rw [valGE, ha2, hb2]
  have hsub : List.Sublist (l.filter (fun x => decide (x.2 = v)))
      (List.insertionSort valGE l) :=
    List.sublist_insertionSort hpw (List.filter_sublist l)
  have hsub2 : List.Sublist
      ((l.filter (fun x => decide (x.2 = v))).filter (fun x => decide (x.2 = v)))
      ((List.insertionSort valGE l).filter (fun x => decide (x.2 = v))) :=
    hsub.filter _
  rw [List.filter_eq_self.mpr (fun a ha => (List.mem_filter.mp ha).2)] at hsub2
  exact (hsub2.eq_of_length hperm.length_eq.symm).symm

open ABCAnalysisAlgorithm in
lemma totalValue_eq (items : List (String × ℚ × ℚ)) :
    totalValue items = ((itemValues items).map Prod.snd).sum := by
  rw [totalValue, sortedValues]
  exact ((List.perm_insertionSort valGE (itemValues items)).map Prod.snd).sum_eq

lemma not_isEmpty_of_ne_nil {α : Type} {l : List α} (h : l ≠ []) : ¬ l.isEmpty = true := by
  cases l with
  | nil => exact absurd rfl h
  | cons x xs =>
    intro hc
    exact Bool.noConfusion hc

open ABCAnalysisAlgorithm in
lemma abc_single_item (p : String) (c d : ℚ) (h : c * d ≠ 0) :
    ABCAnalysisAlgorithm.calculate [(p, c, d)] = some [(p, "A")] := by
  have htot : totalValue [(p, c, d)] ≠ 0 := by
    simpa [totalValue, sortedValues, itemValues, List.insertionSort] using h
  rw [ABCAnalysisAlgorithm.calculate, if_neg (by simp), if_neg htot]
  norm_num [classifyPairs, categoryOf, dictOf, dictInsert, sortedValues, itemValues,
    List.insertionSort, List.orderedInsert]

/-! ### Claim theorems -/

/-- Claim C2: for positive annual demand, non-negative ordering cost and positive
holding cost, `EOQAlgorithm.calculate` returns `sqrt(2·D·S/H)` (so that
`EOQ(1000, 50, 2)` is within 0.01 of 223.61), and it signals the validation
error exactly when `D ≤ 0`, `S < 0` or `H ≤ 0`, never returning a result then. -/
theorem eoq_calculate_spec (D S H : ℚ) :
    (0 < D → 0 ≤ S → 0 < H →
      EOQAlgorithm.calculate D S H =
        Except.ok (Real.sqrt (((2 * D * S) / H : ℚ) : ℝ))) ∧
    ((∃ msg, EOQAlgorithm.calculate D S H = Except.error msg) ↔
      (D ≤ 0 ∨ S < 0 ∨ H ≤ 0)) ∧
    EOQAlgorithm.calculate 1000 50 2 = Except.ok (Real.sqrt 50000) ∧
    |Real.sqrt 50000 - 22361/100| < 1/100 := by
  refine ⟨?_, ⟨?_, ?_⟩, ?_, ?_⟩
  · intro hD hS hH
    rw [EOQAlgorithm.calculate, if_neg (not_le.mpr hD), if_neg (not_lt.mpr hS),
      if_neg (not_le.mpr hH)]
  · rintro ⟨msg, hmsg⟩
    by_contra hcon
    push_neg at hcon
    obtain ⟨h1, h2, h3⟩ := hcon
    rw [EOQAlgorithm.calculate, if_neg (not_le.mpr h1), if_neg (not_lt.mpr h2),
      if_neg (not_le.mpr h3)] at hmsg
    exact Except.noConfusion hmsg
  · intro h
    rw [EOQAlgorithm.calculate]
    split_ifs with h1 h2 h3
    · exact ⟨_, rfl⟩
    · exact ⟨_, rfl⟩
    · exact ⟨_, rfl⟩
    · rcases h with h | h | h
      · exact absurd h h1
      · exact absurd h h2
      · exact absurd h h3
  · norm_num [EOQAlgorithm.calculate]
  · have h1 : Real.sqrt 50000 < 22361/100 :=
      (Real.sqrt_lt' (by norm_num)).mpr (by norm_num)
    have h2 : (2236 : ℝ)/10 < Real.sqrt 50000 :=
      (Real.lt_sqrt (by norm_num)).mpr (by norm_num)
    rw [abs_lt]
    constructor <;> linarith

/-- Closed instance of C2: `EOQ(1000, 50, 2)` succeeds with value `sqrt 50000`. -/
theorem eoq_calculate_spec_witness :
    EOQAlgorithm.calculate 1000 50 2 =
      Except.ok (Real.sqrt (((2 * 1000 * 50) / 2 : ℚ) : ℝ)) :=
  (eoq_calculate_spec 1000 50 2).1 (by norm_num) (by norm_num) (by norm_num)

/-- Claim C5: `SafetyStockAlgorithm.calculate` returns `z·σ·sqrt(L)` for
non-negative inputs, signals the validation error exactly on a negative input,
and returns 0 whenever the standard deviation is 0. -/
theorem safety_stock_calculate_spec (z sd L : ℚ) :
    (0 ≤ z → 0 ≤ sd → 0 ≤ L →
      SafetyStockAlgorithm.calculate z sd L =
        Except.ok ((z : ℝ) * (sd : ℝ) * Real.sqrt ((L : ℚ) : ℝ))) ∧
    ((∃ msg, SafetyStockAlgorithm.calculate z sd L = Except.error msg) ↔
      (z < 0 ∨ sd < 0 ∨ L < 0)) ∧
    (0 ≤ z → 0 ≤ L → SafetyStockAlgorithm.calculate z 0 L = Except.ok 0) := by
  refine ⟨?_, ⟨?_, ?_⟩, ?_⟩
  · intro hz hsd hL
    rw [SafetyStockAlgorithm.calculate, if_neg (not_lt.mpr hz), if_neg (not_lt.mpr hsd),
      if_neg (not_lt.mpr hL)]
  · rintro ⟨msg, hmsg⟩
    by_contra hcon
    push_neg at hcon
    obtain ⟨h1, h2, h3⟩ := hcon
    rw [SafetyStockAlgorithm.calculate, if_neg (not_lt.mpr h1), if_neg (not_lt.mpr h2),
      if_neg (not_lt.mpr h3)] at hmsg
    exact Except.noConfusion hmsg
  · intro h
    rw [SafetyStockAlgorithm.calculate]
    split_ifs with h1 h2 h3
    · exact ⟨_, rfl⟩
    · exact ⟨_, rfl⟩
    · exact ⟨_, rfl⟩
    · rcases h with h | h | h
      · exact absurd h h1
      · exact absurd h h2
      · exact absurd h h3
  · intro hz hL
    rw [SafetyStockAlgorithm.calculate, if_neg (not_lt.mpr hz),
      if_neg (by norm_num : ¬ ((0:ℚ) < 0)), if_neg (not_lt.mpr hL)]
    norm_num

/-- Closed instance of C5: `SafetyStock(2, 0, 9)` succeeds and returns 0. -/
theorem safety_stock_calculate_spec_witness :
    SafetyStockAlgorithm.calculate 2 0 9 = Except.ok 0 :=
  (safety_stock_calculate_spec 2 0 9).2.2 (by norm_num) (by norm_num)

/-- Claim C6: `ReorderPointAlgorithm.calculate` returns `d·L + ss` for
non-negative inputs and signals the validation error exactly on a negative
input; for positive working days, `calculate_from_annual D L ss w` equals
`calculate (D/w) L ss`; in particular
`calculate_from_annual 3650 5 20 365 = calculate 10 5 20 = 70`. -/
theorem reorder_point_spec (d L ss D w : ℚ) :
    (0 ≤ d → 0 ≤ L → 0 ≤ ss →
      ReorderPointAlgorithm.calculate d L ss = Except.ok (d * L + ss)) ∧
    ((∃ msg, ReorderPointAlgorithm.calculate d L ss = Except.error msg) ↔
      (d < 0 ∨ L < 0 ∨ ss < 0)) ∧
    (0 < w → ReorderPointAlgorithm.calculate_from_annual D L ss w =
      ReorderPointAlgorithm.calculate (D / w) L ss) ∧
    ReorderPointAlgorithm.calculate_from_annual 3650 5 20 365 = Except.ok 70 ∧
    ReorderPointAlgorithm.calculate 10 5 20 = Except.ok 70 := by
  refine ⟨?_, ⟨?_, ?_⟩, ?_, ?_, ?_⟩
  · intro hd hL hss
    rw [ReorderPointAlgorithm.calculate, if_neg (not_lt.mpr hd), if_neg (not_lt.mpr hL),
      if_neg (not_lt.mpr hss)]
  · rintro ⟨msg, hmsg⟩
    by_contra hcon
    push_neg at hcon
    obtain ⟨h1, h2, h3⟩ := hcon
    rw [ReorderPointAlgorithm.calculate, if_neg (not_lt.mpr h1), if_neg (not_lt.mpr h2),
      if_neg (not_lt.mpr h3)] at hmsg
    exact Except.noConfusion hmsg
  · intro h
    rw [ReorderPointAlgorithm.calculate]
    split_ifs with h1 h2 h3
    · exact ⟨_, rfl⟩
    · exact ⟨_, rfl⟩
    · exact ⟨_, rfl⟩
    · rcases h with h | h | h
      · exact absurd h h1
      · exact absurd h h2
      · exact absurd h h3
  · intro hw
    rw [ReorderPointAlgorithm.calculate_from_annual, if_neg (not_le.mpr hw)]
  · norm_num [ReorderPointAlgorithm.calculate_from_annual, ReorderPointAlgorithm.calculate]
  · norm_num [ReorderPointAlgorithm.calculate]

/-- Closed instance of C6: `ROP(10, 5, 20) = 70`. -/
theorem reorder_point_spec_witness :
    ReorderPointAlgorithm.calculate 10 5 20 = Except.ok (10 * 5 + 20) :=
  (reorder_point_spec 10 5 20 3650 365).1 (by norm_num) (by norm_num) (by norm_num)

/-- Claim C8: `EOQAlgorithm.calculate_reorder_frequency D eoq` returns `D/eoq`
for positive `eoq` and falls back to 0 for `eoq ≤ 0` without signalling any
error, while every other fallible operation of the system signals its
validation error on an out-of-range input instead of returning a default. -/
theorem reorder_frequency_fallback_spec (D eoq : ℚ) :
    (0 < eoq → EOQAlgorithm.calculate_reorder_frequency D eoq = D / eoq) ∧
    (eoq ≤ 0 → EOQAlgorithm.calculate_reorder_frequency D eoq = 0) ∧
    (∀ D2 S H : ℚ, (D2 ≤ 0 ∨ S < 0 ∨ H ≤ 0) →
      ∃ msg, EOQAlgorithm.calculate D2 S H = Except.error msg) ∧
    (∀ D2 S H Q : ℚ, Q ≤ 0 →
      ∃ msg, EOQAlgorithm.calculate_total_cost D2 S H Q = Except.error msg) ∧
    (∀ d L ss : ℚ, (d < 0 ∨ L < 0 ∨ ss < 0) →
      ∃ msg, ReorderPointAlgorithm.calculate d L ss = Except.error msg) ∧
    (∀ D2 L ss w : ℚ, w ≤ 0 →
      ∃ msg, ReorderPointAlgorithm.calculate_from_annual D2 L ss w = Except.error msg) ∧
    (∀ z sd L : ℚ, (z < 0 ∨ sd < 0 ∨ L < 0) →
      ∃ msg, SafetyStockAlgorithm.calculate z sd L = Except.error msg) ∧
    (∀ (inv : Inventory) (q : ℚ), q ≤ 0 →
      (∃ msg, inv.add_stock q = Except.error msg) ∧
      (∃ msg, inv.remove_stock q = Except.error msg)) := by
  refine ⟨?_, ?_, ?_, ?_, ?_, ?_, ?_, ?_⟩
  · intro h
    rw [EOQAlgorithm.calculate_reorder_frequency, if_pos h]
  · intro h
    rw [EOQAlgorithm.calculate_reorder_frequency, if_neg (not_lt.mpr h)]
  · intro D2 S H h
    rw [EOQAlgorithm.calculate]
    split_ifs with h1 h2 h3
    · exact ⟨_, rfl⟩
    · exact ⟨_, rfl⟩
    · exact ⟨_, rfl⟩
    · rcases h with h | h | h
      · exact absurd h h1
      · exact absurd h h2
      · exact absurd h h3
  · intro D2 S H Q h
    rw [EOQAlgorithm.calculate_total_cost, if_pos h]
    exact ⟨_, rfl⟩
  · intro d L ss h
    rw [ReorderPointAlgorithm.calculate]
    split_ifs with h1 h2 h3
    · exact ⟨_, rfl⟩
    · exact ⟨_, rfl⟩
    · exact ⟨_, rfl⟩
    · rcases h with h | h | h
      · exact absurd h h1
      · exact absurd h h2
      · exact absurd h h3
  · intro D2 L ss w h
    rw [ReorderPointAlgorithm.calculate_from_annual, if_pos h]
    exact ⟨_, rfl⟩
  · intro z sd L h
    rw [SafetyStockAlgorithm.calculate]
    split_ifs with h1 h2 h3
    · exact ⟨_, rfl⟩
    · exact ⟨_, rfl⟩
    · exact ⟨_, rfl⟩
    · rcases h with h | h | h
      · exact absurd h h1
      · exact absurd h h2
      · exact absurd h h3
  · intro inv q h
    constructor
    · rw [Inventory.add_stock, if_pos h]
      exact ⟨_, rfl⟩
    · rw [Inventory.remove_stock, if_pos h]
      exact ⟨_, rfl⟩

/-- Closed instance of C8: the reorder frequency of a zero EOQ is the 0
fallback, with no error. -/
theorem reorder_frequency_fallback_spec_witness :
    EOQAlgorithm.calculate_reorder_frequency 500 0 = 0 :=
  (reorder_frequency_fallback_spec 500 0).2.1 (by norm_num)

/-- Claim C4: `Inventory.remove_stock` fails (leaving the state unchanged) when
the quantity exceeds the current stock or is non-positive, removes exactly the
quantity otherwise, and no sequence of `add_stock`/`remove_stock` calls drives
a non-negative stock level negative. -/
theorem inventory_remove_stock_spec (inv : Inventory) (q : ℚ) :
    (inv.current_stock < q → ∃ msg, inv.remove_stock q = Except.error msg) ∧
    (q ≤ 0 → ∃ msg, inv.remove_stock q = Except.error msg) ∧
    ((inv.current_stock < q ∨ q ≤ 0) → inv.applyOp (Sum.inr q) = inv) ∧
    (0 < q → q ≤ inv.current_stock →
      inv.remove_stock q = Except.ok (Inventory.mk inv.product_id
        (inv.current_stock - q) inv.holding_cost_per_unit inv.unit_cost
        inv.min_stock_level inv.max_stock_level)) ∧
    (∀ ops : List (ℚ ⊕ ℚ), 0 ≤ inv.current_stock →
      0 ≤ (inv.applyOps ops).current_stock) := by
  refine ⟨?_, ?_, ?_, ?_, ?_⟩
  · intro h
    rw [Inventory.remove_stock]
    split_ifs with h1
    · exact ⟨_, rfl⟩
    · exact ⟨_, rfl⟩
  · intro h
    rw [Inventory.remove_stock, if_pos h]
    exact ⟨_, rfl⟩
  · intro h
    rcases h with h | h
    · by_cases hq : q ≤ 0
      · simp [Inventory.applyOp, Inventory.remove_stock, hq]
      · simp [Inventory.applyOp, Inventory.remove_stock, hq, h]
    · simp [Inventory.applyOp, Inventory.remove_stock, h]
  · intro h1 h2
    rw [Inventory.remove_stock, if_neg (not_le.mpr h1), if_neg (not_lt.mpr h2)]
  · intro ops h
    exact applyOps_nonneg ops inv h

/-- Closed instance of C4: removing 7 out of 5 units fails, and the failed call
leaves the state unchanged. -/
theorem inventory_remove_stock_spec_witness :
    (∃ msg, (Inventory.mk ("P") 5 1 0 0 none).remove_stock 7 = Except.error msg) ∧
    (Inventory.mk ("P") 5 1 0 0 none).applyOp (Sum.inr 7) = Inventory.mk ("P") 5 1 0 0 none :=
  ⟨(inventory_remove_stock_spec (Inventory.mk ("P") 5 1 0 0 none) 7).1 (by norm_num),
   (inventory_remove_stock_spec (Inventory.mk ("P") 5 1 0 0 none) 7).2.2.1 (Or.inl (by norm_num))⟩

/-- Claim C9: `is_below_minimum` holds exactly when the stock is strictly below
the minimum, `is_above_maximum` exactly when a maximum is present and the stock
is strictly above it; both are false at the boundary, and `is_above_maximum` is
false when no maximum is set. -/
theorem inventory_threshold_spec (inv : Inventory) :
    (inv.is_below_minimum = true ↔ inv.current_stock < inv.min_stock_level) ∧
    (inv.is_above_maximum = true ↔
      ∃ mx, inv.max_stock_level = some mx ∧ mx < inv.current_stock) ∧
    (inv.current_stock = inv.min_stock_level → inv.is_below_minimum = false) ∧
    (inv.max_stock_level = some inv.current_stock → inv.is_above_maximum = false) ∧
    (inv.max_stock_level = none → inv.is_above_maximum = false) := by
  refine ⟨?_, ?_, ?_, ?_, ?_⟩
  · simp [Inventory.is_below_minimum]
  · rw [Inventory.is_above_maximum]
    cases hmx : inv.max_stock_level with
    | none => simp [hmx]
    | some mx => simp [hmx]
  · intro h
    simp [Inventory.is_below_minimum, h]
  · intro h
    simp [Inventory.is_above_maximum, h]
  · intro h
    simp [Inventory.is_above_maximum, h]

/-- Closed instance of C9: at stock exactly equal to the minimum and the
maximum, both threshold predicates are false. -/
theorem inventory_threshold_spec_witness :
    (Inventory.mk ("Q") 3 1 0 3 (some 3)).is_below_minimum = false ∧
    (Inventory.mk ("Q") 3 1 0 3 (some 3)).is_above_maximum = false :=
  ⟨(inventory_threshold_spec (Inventory.mk ("Q") 3 1 0 3 (some 3))).2.2.1 rfl,
   (inventory_threshold_spec (Inventory.mk ("Q") 3 1 0 3 (some 3))).2.2.2.1 rfl⟩

/-- Claim C7: `get_z_score_for_service_level` returns the table value for each
of the eleven table keys (so `95 → 1.65`, `99 → 2.33`, `90 → 1.28`) and
otherwise returns the value of a table key at minimal absolute distance from
the request, the first such key in table order winning ties; for 96 the result
is one of 1.65 and 1.88 (namely 1.65, from the earlier equidistant key 95). -/
theorem z_score_lookup_spec :
    (∀ p : ℚ, p ∈ SafetyStockAlgorithm.service_levels.map Prod.fst →
      (p, SafetyStockAlgorithm.get_z_score_for_service_level p) ∈
        SafetyStockAlgorithm.service_levels) ∧
    (∀ p : ℚ, p ∉ SafetyStockAlgorithm.service_levels.map Prod.fst →
      ∃ k, k ∈ SafetyStockAlgorithm.service_levels.map Prod.fst ∧
        SafetyStockAlgorithm.get_z_score_for_service_level p =
          SafetyStockAlgorithm.zLookup k ∧
        ∀ k2 ∈ SafetyStockAlgorithm.service_levels.map Prod.fst,
          |k - p| ≤ |k2 - p|) ∧
    SafetyStockAlgorithm.get_z_score_for_service_level 95 = 165/100 ∧
    SafetyStockAlgorithm.get_z_score_for_service_level 99 = 233/100 ∧
    SafetyStockAlgorithm.get_z_score_for_service_level 90 = 128/100 ∧
    (SafetyStockAlgorithm.get_z_score_for_service_level 96 = 165/100 ∨
     SafetyStockAlgorithm.get_z_score_for_service_level 96 = 188/100) := by
  refine ⟨?_, ?_, ?_, ?_, ?_, ?_⟩
  · intro p hp
    rw [SafetyStockAlgorithm.get_z_score_for_service_level, if_pos hp]
    have hlist : SafetyStockAlgorithm.service_levels.map Prod.fst =
        [50, 75, 80, 85, 90, 95, 97, 98, 99, 199/2, 999/10] := rfl
    rw [hlist] at hp
    fin_cases hp <;>
      norm_num [SafetyStockAlgorithm.zLookup, SafetyStockAlgorithm.service_levels, List.find?]
  · intro p hp
    rw [SafetyStockAlgorithm.get_z_score_for_service_level, if_neg hp]
    have hck : SafetyStockAlgorithm.closestKey p =
        [75, 80, 85, 90, 95, 97, 98, 99, 199/2, 999/10].foldl
          (SafetyStockAlgorithm.closestStep p) 50 := rfl
    obtain ⟨hmem, hle, hall⟩ :=
      closest_foldl p [75, 80, 85, 90, 95, 97, 98, 99, 199/2, 999/10] 50
    refine ⟨SafetyStockAlgorithm.closestKey p, ?_, rfl, ?_⟩
    · rw [hck]
      show _ ∈ SafetyStockAlgorithm.service_levels.map Prod.fst
      have hlist : SafetyStockAlgorithm.service_levels.map Prod.fst =
          50 :: [75, 80, 85, 90, 95, 97, 98, 99, 199/2, 999/10] := rfl
      rw [hlist]
      rcases hmem with h | h
      · rw [h]
        exact List.mem_cons_self _ _
      · exact List.mem_cons_of_mem _ h
    · intro k2 hk2
      have hlist : SafetyStockAlgorithm.service_levels.map Prod.fst =
          50 :: [75, 80, 85, 90, 95, 97, 98, 99, 199/2, 999/10] := rfl
      rw [hlist] at hk2
      rw [hck]
      rcases List.mem_cons.mp hk2 with h | h
      · rw [h]
        exact hle
      · exact hall k2 h
  · norm_num [SafetyStockAlgorithm.get_z_score_for_service_level,
      SafetyStockAlgorithm.service_levels, SafetyStockAlgorithm.zLookup, List.find?]
  · norm_num [SafetyStockAlgorithm.get_z_score_for_service_level,
      SafetyStockAlgorithm.service_levels, SafetyStockAlgorithm.zLookup, List.find?]
  · norm_num [SafetyStockAlgorithm.get_z_score_for_service_level,
      SafetyStockAlgorithm.service_levels, SafetyStockAlgorithm.zLookup, List.find?]
  · left
    norm_num [SafetyStockAlgorithm.get_z_score_for_service_level,
      SafetyStockAlgorithm.service_levels, SafetyStockAlgorithm.zLookup, List.find?,
      SafetyStockAlgorithm.closestKey, SafetyStockAlgorithm.closestStep, abs_ite]

/-- Closed instance of C7: the exact lookup at 95 returns the table entry. -/
theorem z_score_lookup_spec_witness :
    ((95 : ℚ), SafetyStockAlgorithm.get_z_score_for_service_level 95) ∈
      SafetyStockAlgorithm.service_levels :=
  z_score_lookup_spec.1 95 (by norm_num [SafetyStockAlgorithm.service_levels])

open ABCAnalysisAlgorithm in
/-- Claim C1: on a non-empty item list (with nonzero total value, which the
unguarded division requires), `ABCAnalysisAlgorithm.calculate` computes each
item's value `unit_cost · annual_demand`, sorts by value descending and stably,
and classifies each sorted item by the cumulative percentage accumulated BEFORE
its own value (`<80 → A`, `<95 → B`, else `C`); the first sorted item — and
hence a single-item input — is always classified `A`. -/
theorem abc_calculate_spec (items : List (String × ℚ × ℚ)) (hne : items ≠ [])
    (htot : totalValue items ≠ 0) :
    List.Perm (sortedValues items) (itemValues items) ∧
    List.Sorted valGE (sortedValues items) ∧
    (∀ v : ℚ, (sortedValues items).filter (fun x => decide (x.2 = v)) =
      (itemValues items).filter (fun x => decide (x.2 = v))) ∧
    totalValue items = ((itemValues items).map Prod.snd).sum ∧
    (∀ pct : ℚ, (pct < 80 → categoryOf pct = "A") ∧
      (80 ≤ pct → pct < 95 → categoryOf pct = "B") ∧
      (95 ≤ pct → categoryOf pct = "C")) ∧
    ABCAnalysisAlgorithm.calculate items =
      some (dictOf (classifyPairs (totalValue items) 0 (sortedValues items))) ∧
    (∀ (i : ℕ) (h : i < (sortedValues items).length)
      (h2 : i < (classifyPairs (totalValue items) 0 (sortedValues items)).length),
      (classifyPairs (totalValue items) 0 (sortedValues items)).get ⟨i, h2⟩ =
        (((sortedValues items).get ⟨i, h⟩).1,
         categoryOf ((((sortedValues items).take i).map Prod.snd).sum /
           totalValue items * 100))) ∧
    ((classifyPairs (totalValue items) 0 (sortedValues items)).head? =
      ((sortedValues items).head?).map (fun x => (x.1, "A"))) ∧
    (∀ (p : String) (c d : ℚ), items = [(p, c, d)] →
      ABCAnalysisAlgorithm.calculate items = some [(p, "A")]) := by
  refine ⟨?_, ?_, ?_, ?_, ?_, ?_, ?_, ?_, ?_⟩
  · exact List.perm_insertionSort valGE (itemValues items)
  · exact List.sorted_insertionSort valGE (itemValues items)
  · exact fun v => stable_filter (itemValues items) v
  · exact totalValue_eq items
  · intro pct
    refine ⟨?_, ?_, ?_⟩
    · intro h
      rw [categoryOf, if_pos h]
    · intro h1 h2
      rw [categoryOf, if_neg (not_lt.mpr h1), if_pos h2]
    · intro h
      rw [categoryOf, if_neg (not_lt.mpr (le_trans (by norm_num) h)),
        if_neg (not_lt.mpr h)]
  · rw [ABCAnalysisAlgorithm.calculate, if_neg (not_isEmpty_of_ne_nil hne), if_neg htot]
  · intro i h h2
    have hrec := classifyPairs_get (totalValue items) (sortedValues items) 0 i h h2
    rw [zero_add] at hrec
    exact hrec
  · cases hs : sortedValues items with
    | nil => simp [classifyPairs]
    | cons x rest =>
      obtain ⟨pid, v⟩ := x
      rw [classifyPairs_head]
      simp
  · intro p c d hit
    subst hit
    have hv : totalValue [(p, c, d)] = c * d := by
      simp [totalValue, sortedValues, itemValues, List.insertionSort]
    exact abc_single_item p c d (hv ▸ htot)

/-- Closed instance of C1: a single item with nonzero value is classified A. -/
theorem abc_calculate_spec_witness :
    ABCAnalysisAlgorithm.calculate [("W", 2, 3)] = some [("W", "A")] :=
  (abc_calculate_spec [("W", 2, 3)] (by simp)
    (by norm_num [ABCAnalysisAlgorithm.totalValue, ABCAnalysisAlgorithm.sortedValues,
      ABCAnalysisAlgorithm.itemValues, List.insertionSort])).2.2.2.2.2.2.2.2 ("W") 2 3 rfl

/-- Counterexample to C1 as stated: for the non-empty single-item input with
value 0 the routine divides by a zero total and fails, so the single item is
not classified `A`. -/
theorem abc_calculate_zero_counterexample :
    ABCAnalysisAlgorithm.calculate [("Z1", 0, 0)] = none ∧
    ¬ ABCAnalysisAlgorithm.calculate [("Z1", 0, 0)] = some [("Z1", "A")] := by
  have h : ABCAnalysisAlgorithm.calculate [("Z1", 0, 0)] = none := by
    norm_num [ABCAnalysisAlgorithm.calculate, ABCAnalysisAlgorithm.totalValue,
      ABCAnalysisAlgorithm.sortedValues, ABCAnalysisAlgorithm.itemValues, List.insertionSort]
  refine ⟨h, ?_⟩
  rw [h]
  simp

open ABCAnalysisAlgorithm in
/-- Claim C3: for inputs with pairwise-distinct product ids and (empty input or)
nonzero total value, `ABCAnalysisAlgorithm.calculate` returns a mapping whose
values all lie in {A, B, C} and whose entry count equals the input count; the
empty list yields the empty mapping without error, the three-item example is
classified P1 → A, P2 → B, P3 → C, and a single item with nonzero value is A. -/
theorem abc_output_shape_spec (items : List (String × ℚ × ℚ))
    (hnd : (items.map Prod.fst).Nodup)
    (hok : items = [] ∨ totalValue items ≠ 0) :
    (∃ m, ABCAnalysisAlgorithm.calculate items = some m ∧
      m.length = items.length ∧
      ∀ kv ∈ m, kv.2 = "A" ∨ kv.2 = "B" ∨ kv.2 = "C") ∧
    ABCAnalysisAlgorithm.calculate [] = some [] ∧
    ABCAnalysisAlgorithm.calculate [("P1", 100, 1000), ("P2", 10, 500), ("P3", 5, 200)] =
      some [("P1", "A"), ("P2", "B"), ("P3", "C")] ∧
    (∀ (p : String) (c d : ℚ), c * d ≠ 0 →
      ABCAnalysisAlgorithm.calculate [(p, c, d)] = some [(p, "A")]) := by
  refine ⟨?_, rfl, ?_, ?_⟩
  · rcases hok with hemp | htot
    · subst hemp
      exact ⟨[], rfl, rfl, by simp⟩
    · have hne : items ≠ [] := by
        rintro rfl
        exact htot rfl
      have hkeys : (classifyPairs (totalValue items) 0 (sortedValues items)).map Prod.fst =
          (sortedValues items).map Prod.fst :=
        classifyPairs_keys (totalValue items) (sortedValues items) 0
      have hmapfst : (itemValues items).map Prod.fst = items.map Prod.fst := by
        simp [itemValues, List.map_map, Function.comp]
      have hpermfst : List.Perm ((sortedValues items).map Prod.fst)
          (items.map Prod.fst) := by
        have hp := (List.perm_insertionSort valGE (itemValues items)).map Prod.fst
        rw [hmapfst] at hp
        exact hp
      have hnodup : ((classifyPairs (totalValue items) 0 (sortedValues items)).map
          Prod.fst).Nodup := by
        rw [hkeys]
        exact hpermfst.nodup_iff.mpr hnd
      refine ⟨classifyPairs (totalValue items) 0 (sortedValues items), ?_, ?_, ?_⟩
      · rw [ABCAnalysisAlgorithm.calculate, if_neg (not_isEmpty_of_ne_nil hne),
          if_neg htot, dictOf_nodup _ hnodup]
      · rw [classifyPairs_length, sortedValues, List.length_insertionSort,
          itemValues, List.length_map]
      · exact fun kv hkv =>
          classifyPairs_mem_category (totalValue items) (sortedValues items) 0 kv hkv
  · norm_num [ABCAnalysisAlgorithm.calculate, ABCAnalysisAlgorithm.totalValue,
      ABCAnalysisAlgorithm.sortedValues, ABCAnalysisAlgorithm.itemValues,
      List.insertionSort, List.orderedInsert, valGE, classifyPairs, categoryOf,
      dictOf, dictInsert]
    decide
  · exact fun p c d h => abc_single_item p c d h

/-- Closed instance of C3: the three-item example is classified A, B, C. -/
theorem abc_output_shape_spec_witness :
    ABCAnalysisAlgorithm.calculate [("P1", 100, 1000), ("P2", 10, 500), ("P3", 5, 200)] =
      some [("P1", "A"), ("P2", "B"), ("P3", "C")] :=
  (abc_output_shape_spec [("P1", 100, 1000), ("P2", 10, 500), ("P3", 5, 200)]
    (by simp)
    (Or.inr (by norm_num [ABCAnalysisAlgorithm.totalValue, ABCAnalysisAlgorithm.sortedValues,
      ABCAnalysisAlgorithm.itemValues, List.insertionSort, List.orderedInsert,
      ABCAnalysisAlgorithm.valGE]))).2.2.1

/-- Counterexample to C3 as stated: a duplicated product id collapses two input
items into one mapping entry, and an all-zero-value input fails instead of
returning a mapping. -/
theorem abc_output_shape_counterexample :
    (ABCAnalysisAlgorithm.calculate [("D1", 1, 1), ("D1", 1, 1)]).map List.length = some 1 ∧
    (ABCAnalysisAlgorithm.calculate [("D1", 1, 1), ("D1", 1, 1)]).map List.length ≠ some 2 ∧
    ABCAnalysisAlgorithm.calculate [("D2", 0, 5)] = none := by
  have h1 : ABCAnalysisAlgorithm.calculate [("D1", 1, 1), ("D1", 1, 1)] =
      some [("D1", "A")] := by
    norm_num [ABCAnalysisAlgorithm.calculate, ABCAnalysisAlgorithm.totalValue,
      ABCAnalysisAlgorithm.sortedValues, ABCAnalysisAlgorithm.itemValues,
      List.insertionSort, List.orderedInsert, ABCAnalysisAlgorithm.valGE,
      ABCAnalysisAlgorithm.classifyPairs, ABCAnalysisAlgorithm.categoryOf,
      ABCAnalysisAlgorithm.dictOf, ABCAnalysisAlgorithm.dictInsert]
  refine ⟨by rw [h1]; rfl, by rw [h1]; simp, ?_⟩
  norm_num [ABCAnalysisAlgorithm.calculate, ABCAnalysisAlgorithm.totalValue,
    ABCAnalysisAlgorithm.sortedValues, ABCAnalysisAlgorithm.itemValues, List.insertionSort]

open ABCAnalysisAlgorithm in
/-- Claim C10: a non-empty input all of whose item values are zero makes
`ABCAnalysisAlgorithm.calculate` divide by the zero total, so it fails
(`ZeroDivisionError`, modelled as `none`) instead of returning a mapping. -/
theorem abc_zero_total_crash (items : List (String × ℚ × ℚ)) (hne : items ≠ [])
    (hall : ∀ it ∈ items, it.2.1 * it.2.2 = 0) :
    ABCAnalysisAlgorithm.calculate items = none := by
  have htot : totalValue items = 0 := by
    rw [totalValue_eq]
    apply List.sum_eq_zero
    intro x hx
    rw [List.mem_map] at hx
    obtain ⟨y, hy, hxy⟩ := hx
    rw [itemValues, List.mem_map] at hy
    obtain ⟨it, hit, hyit⟩ := hy
    rw [← hxy, ← hyit]
    exact hall it hit
  rw [ABCAnalysisAlgorithm.calculate, if_neg (not_isEmpty_of_ne_nil hne), if_pos htot]

/-- Closed instance of C10: two items with zero values make the routine fail. -/
theorem abc_zero_total_crash_witness :
    ABCAnalysisAlgorithm.calculate [("W1", 0, 2), ("W2", 3, 0)] = none := by
  apply abc_zero_total_crash
  · simp
  · intro it hit
    simp only [List.mem_cons, List.not_mem_nil, or_false] at hit
    rcases hit with h | h <;> rw [h] <;> norm_num

end StockManagement
